import Mathlib

/-!
Verification development for the librato-api configuration reconciliation
engine (`index.js` / `librato.js`).

The definitions below are shallow embeddings of the JavaScript source:
`createOrUpdateSpace`, `dumpSpace`, `_processRawConfig` (template value
permutations, default-metric merging, outdated-metric name expansion) from
the `AppOpticsAPI` class, and the error-counting logic of `updateFromDir`
from the CLI tool.  Network effects are made explicit: remote responses are
inputs (an environment record) and issued remote calls are outputs (a trace
list), so that claims about which calls are issued and in which order become
statements about the returned trace.
-/

namespace LibratoApi

/-! ### lodash `_.uniq` (keeps the first occurrence of each value) -/

/-- Helper for `lodashUniq`: drop every element already seen, keeping
first occurrences. -/
def lodashUniqAux [DecidableEq α] (seen : List α) : List α → List α
  | [] => []
  | x :: xs => if x ∈ seen then lodashUniqAux seen xs else x :: lodashUniqAux (x :: seen) xs

/-- `_.uniq`: deduplicate a list keeping the first occurrence of each
value, preserving order. -/
def lodashUniq [DecidableEq α] (l : List α) : List α :=
  lodashUniqAux [] l

theorem mem_lodashUniqAux [DecidableEq α] {a : α} :
    ∀ (seen l : List α), a ∈ lodashUniqAux seen l ↔ a ∈ l ∧ a ∉ seen := by
  intro seen l
  induction l generalizing seen with
  | nil => simp [lodashUniqAux]
  | cons x xs ih =>
    by_cases hx : x ∈ seen
    · rw [lodashUniqAux, if_pos hx, ih seen]
      constructor
      · rintro ⟨h1, h2⟩
        exact ⟨List.mem_cons_of_mem _ h1, h2⟩
      · rintro ⟨h1, h2⟩
        rcases List.mem_cons.mp h1 with rfl | h1'
        · exact absurd hx h2
        · exact ⟨h1', h2⟩
    · rw [lodashUniqAux, if_neg hx]
      simp only [List.mem_cons, ih (x :: seen)]
      constructor
      · rintro (rfl | ⟨h1, h2⟩)
        · exact ⟨Or.inl rfl, hx⟩
        · exact ⟨Or.inr h1, fun hs => h2 (Or.inr hs)⟩
      · rintro ⟨rfl | h1, h2⟩
        · exact Or.inl rfl
        · by_cases hax : a = x
          · exact Or.inl hax
          · refine Or.inr ⟨h1, fun hs => ?_⟩
            rcases hs with h | h
            · exact hax h
            · exact h2 h

theorem mem_lodashUniq [DecidableEq α] {a : α} {l : List α} :
    a ∈ lodashUniq l ↔ a ∈ l := by
  rw [lodashUniq, mem_lodashUniqAux]
  simp

theorem nodup_lodashUniqAux [DecidableEq α] :
    ∀ (seen l : List α), (lodashUniqAux seen l).Nodup := by
  intro seen l
  induction l generalizing seen with
  | nil => simp [lodashUniqAux]
  | cons x xs ih =>
    by_cases hx : x ∈ seen
    · rw [lodashUniqAux, if_pos hx]
      exact ih seen
    · rw [lodashUniqAux, if_neg hx]
      refine List.nodup_cons.mpr ⟨fun hmem => ?_, ih (x :: seen)⟩
      exact ((mem_lodashUniqAux (x :: seen) xs).mp hmem).2 (List.mem_cons_self x seen)

theorem nodup_lodashUniq [DecidableEq α] (l : List α) : (lodashUniq l).Nodup :=
  nodup_lodashUniqAux [] l

theorem length_lodashUniqAux_le [DecidableEq α] :
    ∀ (seen l : List α), (lodashUniqAux seen l).length ≤ l.length := by
  intro seen l
  induction l generalizing seen with
  | nil => simp [lodashUniqAux]
  | cons x xs ih =>
    by_cases hx : x ∈ seen
    · rw [lodashUniqAux, if_pos hx]
      exact Nat.le_succ_of_le (ih seen)
    · rw [lodashUniqAux, if_neg hx]
      exact Nat.succ_le_succ (ih (x :: seen))

theorem lodashUniqAux_eq_self [DecidableEq α] :
    ∀ (seen l : List α), l.Nodup → (∀ a ∈ l, a ∉ seen) → lodashUniqAux seen l = l := by
  intro seen l
  induction l generalizing seen with
  | nil => intro _ _; rw [lodashUniqAux]
  | cons x xs ih =>
    intro hnd hchk
    have hx : x ∉ seen := hchk x (List.mem_cons_self x xs)
    rw [lodashUniqAux, if_neg hx]
    have hrest : ∀ a ∈ xs, a ∉ x :: seen := by
      intro a ha hmem
      rcases List.mem_cons.mp hmem with rfl | h
      · exact (List.nodup_cons.mp hnd).1 ha
      · exact hchk a (List.mem_cons_of_mem _ ha) h
    rw [ih (x :: seen) (List.nodup_cons.mp hnd).2 hrest]

theorem lodashUniq_eq_self_of_nodup [DecidableEq α] {l : List α} (h : l.Nodup) :
    lodashUniq l = l :=
  lodashUniqAux_eq_self [] l h (by simp)

theorem length_lodashUniqAux_lt_of_seen [DecidableEq α] {x : α} :
    ∀ (seen l : List α), x ∈ seen → x ∈ l → (lodashUniqAux seen l).length < l.length := by
  intro seen l
  induction l generalizing seen with
  | nil => intro _ h; cases h
  | cons y ys ih =>
    intro hseen hmem
    by_cases hy : y ∈ seen
    · rw [lodashUniqAux, if_pos hy]
      exact Nat.lt_succ_of_le (length_lodashUniqAux_le seen ys)
    · rw [lodashUniqAux, if_neg hy]
      have hxy : x ≠ y := fun h => hy (h ▸ hseen)
      have hx' : x ∈ ys := by
        rcases List.mem_cons.mp hmem with h | h
        · exact absurd h hxy
        · exact h
      exact Nat.succ_lt_succ (ih (y :: seen) (List.mem_cons_of_mem _ hseen) hx')

theorem length_lodashUniq_lt_of_not_nodup [DecidableEq α] :
    ∀ {l : List α}, ¬ l.Nodup → (lodashUniq l).length < l.length := by
  suffices h : ∀ (seen l : List α), ¬ l.Nodup → (lodashUniqAux seen l).length < l.length by
    intro l hl
    exact h [] l hl
  intro seen l
  induction l generalizing seen with
  | nil => intro h; exact absurd List.nodup_nil h
  | cons x xs ih =>
    intro hnd
    by_cases hx : x ∈ seen
    · rw [lodashUniqAux, if_pos hx]
      exact Nat.lt_succ_of_le (length_lodashUniqAux_le seen xs)
    · rw [lodashUniqAux, if_neg hx]
      by_cases hxxs : x ∈ xs
      · exact Nat.succ_lt_succ
          (length_lodashUniqAux_lt_of_seen (x :: seen) xs (List.mem_cons_self x seen) hxxs)
      · have hxs : ¬ xs.Nodup := fun hn => hnd (List.nodup_cons.mpr ⟨hxxs, hn⟩)
        exact Nat.succ_lt_succ (ih (x :: seen) hxs)

/-! ### Data model for `createOrUpdateSpace` (index.js lines 813-866)

A chart is referenced by `name` in local definitions and by the
server-assigned numeric `id` remotely; `body` stands for the remaining
payload fields of the chart object (streams etc.), which the reconciler
passes through unchanged. -/

structure Chart where
  name : String
  id : Nat
  body : String
  deriving DecidableEq, Repr

/-- A remote space as returned by `findSpaceByName` / `postSpace`. -/
structure RSpace where
  id : Nat
  name : String
  deriving DecidableEq, Repr

/-- A local space definition `{ name: NAME, charts: [ CHARTS* ] }`. -/
structure SpaceDef where
  name : String
  charts : List Chart
  deriving DecidableEq, Repr

/-- One remote API call issued by `createOrUpdateSpace`; the trace of these
calls is part of the model's output. -/
inductive NetCall where
  | findSpace (name : String)
  | postSpace (name : String)
  | getCharts (spaceId : Nat)
  | deleteChart (spaceId : Nat) (chartId : Nat)
  | putChart (spaceId : Nat) (chartId : Nat) (chart : Chart)
  | postChart (spaceId : Nat) (chart : Chart)
  deriving DecidableEq, Repr

/-- A tagged chart-operation failure record
`{ chart: chart.name, op, errors: err.error.errors }`. -/
structure FailRec where
  chart : String
  op : String
  errors : List String
  deriving DecidableEq, Repr

/-- Errors thrown by `createOrUpdateSpace`: the synchronous validation
errors and the final aggregate error of `validateChartResults`. -/
inductive CoError where
  | config (msg : String)
  | aggregate (msg : String) (errors : List FailRec)
  deriving DecidableEq, Repr

/-- The remote environment observed by one `createOrUpdateSpace` call:
what `findSpaceByName` settles to, the space `postSpace` would create,
the charts `getCharts` would return, and each chart operation's outcome
(`none` = fulfilled, `some errs` = rejected with `error.errors = errs`). -/
structure Env where
  findResult : Except String RSpace
  postedSpace : RSpace
  remoteCharts : List Chart
  opResult : NetCall → Option (List String)

/-- `validateNewChartNames` (index.js lines 816-823): `some msg` models a
thrown error. -/
def validateNewChartNames (spaceName : String) (names : List String) : Option String :=
  if names.any (fun n => decide (n = "")) then
    some ("empty chart name in space " ++ spaceName)
  else if (lodashUniq names).length < names.length then
    some ("duplicate chart names in space " ++ spaceName)
  else
    none

/-- `getIdByName` (index.js line 852): id of the first existing chart with
the given name (`_.find({ name }, existingCharts).id`). -/
def getIdByName (existingCharts : List Chart) (n : String) : Nat :=
  ((existingCharts.find? (fun c => decide (c.name = n))).map (fun c => c.id)).getD 0

/-- The chart-operation phase of `createOrUpdateSpace` (index.js lines
850-864): computes `toDelete` / `toUpdate` / `toCreate`, issues the three
operation groups in order, collects per-operation failure records
(`collectErrs`), and applies `validateChartResults`.  `pre` is the trace of
the calls already issued by the lookup phase. -/
def runChartOps (env : Env) (newSpace : SpaceDef) (pre : List NetCall)
    (spaceId : Nat) (existingCharts : List Chart) :
    List NetCall × Except CoError Unit :=
  let newCharts := newSpace.charts
  let newChartNames := newCharts.map (fun c => c.name)
  let existingChartNames := existingCharts.map (fun c => c.name)
  let toDelete := existingCharts.filter (fun c => !decide (c.name ∈ newChartNames))
  let oldAndNew := newCharts.partition (fun c => decide (c.name ∈ existingChartNames))
  let toUpdate := oldAndNew.1
  let toCreate := oldAndNew.2
  let delCall := fun (c : Chart) => NetCall.deleteChart spaceId c.id
  let updCall := fun (c : Chart) => NetCall.putChart spaceId (getIdByName existingCharts c.name) c
  let creCall := fun (c : Chart) => NetCall.postChart spaceId c
  let collectErrs := fun (op : String) (call : Chart → NetCall) (c : Chart) =>
    (env.opResult (call c)).map (fun errs => FailRec.mk c.name op errs)
  let chartResults :=
    toDelete.map (collectErrs "delete" delCall)
    ++ toUpdate.map (collectErrs "update" updCall)
    ++ toCreate.map (collectErrs "create" creCall)
  let chartErrors := chartResults.reduceOption
  let trace := pre ++ toDelete.map delCall ++ toUpdate.map updCall ++ toCreate.map creCall
  (trace,
    if chartErrors.isEmpty then Except.ok ()
    else Except.error (CoError.aggregate
      ("some chart operations failed in space " ++ newSpace.name) chartErrors))

/-- `createOrUpdateSpace` (index.js lines 813-866), as a function from the
local definition and the remote environment to the trace of issued remote
calls paired with the call's outcome. -/
def createOrUpdateSpace (env : Env) (newSpace : SpaceDef) :
    List NetCall × Except CoError Unit :=
  match validateNewChartNames newSpace.name (newSpace.charts.map (fun c => c.name)) with
  | some msg => ([], Except.error (CoError.config msg))
  | none =>
    -- `findSpaceByName(...).catch(_.constant(undefined))`: any rejection
    -- becomes `undefined`
    match env.findResult.toOption with
    | none =>
      runChartOps env newSpace
        [NetCall.findSpace newSpace.name, NetCall.postSpace newSpace.name]
        env.postedSpace.id []
    | some s =>
      runChartOps env newSpace
        [NetCall.findSpace newSpace.name, NetCall.getCharts s.id]
        s.id env.remoteCharts

/-- The delete set as the spec describes it: existing remote charts whose
name is absent from the new definition. -/
def toDeleteSet (existingCharts newCharts : List Chart) : List Chart :=
  existingCharts.filter (fun c => !decide (c.name ∈ newCharts.map (fun c => c.name)))

/-- The update set as the spec describes it: new charts whose name matches
an existing chart. -/
def toUpdateSet (existingCharts newCharts : List Chart) : List Chart :=
  newCharts.filter (fun c => decide (c.name ∈ existingCharts.map (fun c => c.name)))

/-- The create set as the spec describes it: new charts whose name matches
no existing chart. -/
def toCreateSet (existingCharts newCharts : List Chart) : List Chart :=
  newCharts.filter (fun c => !decide (c.name ∈ existingCharts.map (fun c => c.name)))

theorem validateNewChartNames_empty (sp : String) (names : List String)
    (h : ∃ n ∈ names, n = "") :
    validateNewChartNames sp names = some ("empty chart name in space " ++ sp) := by
  unfold validateNewChartNames
  rw [if_pos]
  simp only [List.any_eq_true, decide_eq_true_eq]
  exact h

theorem validateNewChartNames_dup (sp : String) (names : List String)
    (h1 : ∀ n ∈ names, n ≠ "") (h2 : ¬ names.Nodup) :
    validateNewChartNames sp names = some ("duplicate chart names in space " ++ sp) := by
  unfold validateNewChartNames
  rw [if_neg, if_pos]
  · exact length_lodashUniq_lt_of_not_nodup h2
  · simp only [List.any_eq_true, decide_eq_true_eq, not_exists, not_and]
    exact h1

theorem validateNewChartNames_eq_none (sp : String) (names : List String)
    (h1 : ∀ n ∈ names, n ≠ "") (h2 : names.Nodup) :
    validateNewChartNames sp names = none := by
  unfold validateNewChartNames
  rw [if_neg, if_neg]
  · rw [lodashUniq_eq_self_of_nodup h2]
    exact lt_irrefl _
  · simp only [List.any_eq_true, decide_eq_true_eq, not_exists, not_and]
    exact h1

/-- The ordered list of tagged failure records produced by one
`createOrUpdateSpace` call's chart operations: one record per failed
operation, all delete failures first, then all update failures, then all
create failures, each group in its original iteration order. -/
def chartFailures (env : Env) (spaceId : Nat) (existing newCharts : List Chart) :
    List FailRec :=
  (toDeleteSet existing newCharts).filterMap
    (fun c => (env.opResult (NetCall.deleteChart spaceId c.id)).map
      (fun errs => FailRec.mk c.name "delete" errs))
  ++ (toUpdateSet existing newCharts).filterMap
    (fun c => (env.opResult (NetCall.putChart spaceId (getIdByName existing c.name) c)).map
      (fun errs => FailRec.mk c.name "update" errs))
  ++ (toCreateSet existing newCharts).filterMap
    (fun c => (env.opResult (NetCall.postChart spaceId c)).map
      (fun errs => FailRec.mk c.name "create" errs))

/-- Characterization of `runChartOps`: the issued trace appends the three
operation groups in delete/update/create order, and the outcome aggregates
exactly the per-operation failure records in the same order. -/
theorem runChartOps_spec (env : Env) (newSpace : SpaceDef) (pre : List NetCall)
    (spaceId : Nat) (existing : List Chart) :
    runChartOps env newSpace pre spaceId existing =
      (pre ++ (toDeleteSet existing newSpace.charts).map (fun c => NetCall.deleteChart spaceId c.id)
          ++ (toUpdateSet existing newSpace.charts).map
              (fun c => NetCall.putChart spaceId (getIdByName existing c.name) c)
          ++ (toCreateSet existing newSpace.charts).map (fun c => NetCall.postChart spaceId c),
       if chartFailures env spaceId existing newSpace.charts = [] then Except.ok ()
       else Except.error (CoError.aggregate
         ("some chart operations failed in space " ++ newSpace.name)
         (chartFailures env spaceId existing newSpace.charts))) := by
  unfold runChartOps chartFailures toDeleteSet toUpdateSet toCreateSet
  simp only [List.partition_eq_filter_filter, List.reduceOption, List.filterMap_append,
    List.filterMap_map, Function.comp_def, id_eq, List.append_assoc, List.isEmpty_iff]

theorem createOrUpdateSpace_found (env : Env) (newSpace : SpaceDef) (s : RSpace)
    (hfind : env.findResult = Except.ok s)
    (hv : validateNewChartNames newSpace.name (newSpace.charts.map (fun c => c.name)) = none) :
    createOrUpdateSpace env newSpace =
      runChartOps env newSpace
        [NetCall.findSpace newSpace.name, NetCall.getCharts s.id] s.id env.remoteCharts := by
  unfold createOrUpdateSpace
  rw [hv, hfind]
  rfl

theorem createOrUpdateSpace_absent (env : Env) (newSpace : SpaceDef) (e : String)
    (hfind : env.findResult = Except.error e)
    (hv : validateNewChartNames newSpace.name (newSpace.charts.map (fun c => c.name)) = none) :
    createOrUpdateSpace env newSpace =
      runChartOps env newSpace
        [NetCall.findSpace newSpace.name, NetCall.postSpace newSpace.name]
        env.postedSpace.id [] := by
  unfold createOrUpdateSpace
  rw [hv, hfind]
  rfl

/-- A remote call that is one of the three chart operations. -/
def isDeleteCall : NetCall → Bool
  | NetCall.deleteChart _ _ => true
  | _ => false

def isUpdateCall : NetCall → Bool
  | NetCall.putChart _ _ _ => true
  | _ => false

def isCreateCall : NetCall → Bool
  | NetCall.postChart _ _ => true
  | _ => false

/-- The chart operations of a call trace, in issuing order. -/
def chartOpCalls (t : List NetCall) : List NetCall :=
  t.filter (fun c => isDeleteCall c || isUpdateCall c || isCreateCall c)

end LibratoApi

deriving instance DecidableEq for Except

namespace LibratoApi

/-- C1: for a valid local definition against an existing remote space, the
issued chart operations are exactly one delete per existing chart whose name
is absent from the new definition, one update per new chart whose name
matches an existing chart, and one create per new chart matching no existing
chart — and nothing else; the three sets are disjoint by chart name. -/
theorem createOrUpdateSpace_diff_sets (env : Env) (newSpace : SpaceDef) (s : RSpace)
    (hfind : env.findResult = Except.ok s)
    (hne : ∀ c ∈ newSpace.charts, c.name ≠ "")
    (hnd : (newSpace.charts.map (fun c => c.name)).Nodup) :
    ((createOrUpdateSpace env newSpace).1 =
      [NetCall.findSpace newSpace.name, NetCall.getCharts s.id]
      ++ (toDeleteSet env.remoteCharts newSpace.charts).map
          (fun c => NetCall.deleteChart s.id c.id)
      ++ (toUpdateSet env.remoteCharts newSpace.charts).map
          (fun c => NetCall.putChart s.id (getIdByName env.remoteCharts c.name) c)
      ++ (toCreateSet env.remoteCharts newSpace.charts).map
          (fun c => NetCall.postChart s.id c))
    ∧ (∀ d ∈ toDeleteSet env.remoteCharts newSpace.charts,
        ∀ u ∈ toUpdateSet env.remoteCharts newSpace.charts, d.name ≠ u.name)
    ∧ (∀ d ∈ toDeleteSet env.remoteCharts newSpace.charts,
        ∀ k ∈ toCreateSet env.remoteCharts newSpace.charts, d.name ≠ k.name)
    ∧ (∀ u ∈ toUpdateSet env.remoteCharts newSpace.charts,
        ∀ k ∈ toCreateSet env.remoteCharts newSpace.charts, u.name ≠ k.name) := by
  have hv := validateNewChartNames_eq_none newSpace.name _
    (by intro n hn
        obtain ⟨c, hc, rfl⟩ := List.mem_map.mp hn
        exact hne c hc)
    hnd
  refine ⟨?_, ?_, ?_, ?_⟩
  · rw [createOrUpdateSpace_found env newSpace s hfind hv, runChartOps_spec]
  · intro d hd u hu
    have hd' := (List.mem_filter.mp hd).2
    have hu' := (List.mem_filter.mp hu).2
    simp only [Bool.not_eq_true', decide_eq_false_iff_not, List.mem_map] at hd'
    intro hname
    exact hd' ⟨u, (List.mem_filter.mp hu).1, hname.symm⟩
  · intro d hd k hk
    have hd' := (List.mem_filter.mp hd).2
    simp only [Bool.not_eq_true', decide_eq_false_iff_not, List.mem_map] at hd'
    intro hname
    exact hd' ⟨k, (List.mem_filter.mp hk).1, hname.symm⟩
  · intro u hu k hk
    have hu' := (List.mem_filter.mp hu).2
    have hk' := (List.mem_filter.mp hk).2
    simp only [decide_eq_true_eq] at hu'
    simp only [Bool.not_eq_true', decide_eq_false_iff_not] at hk'
    intro hname
    exact hk' (hname ▸ hu')

/-- C1 witness: the spec's concrete scenario — remote charts `chart1`
(id 101) and `chart2` (id 102) in space 333, local charts `chart1a` (named
`chart1`) and `chart3` — produces exactly one delete of chart2, one update
of chart1 and one create of chart3, in that order. -/
theorem createOrUpdateSpace_diff_sets_witness :
    ((createOrUpdateSpace
        ⟨Except.ok ⟨333, "space1"⟩, ⟨999, "space1"⟩,
         [⟨"chart1", 101, "c1"⟩, ⟨"chart2", 102, "c2"⟩], fun _ => none⟩
        ⟨"space1", [⟨"chart1", 0, "c1a"⟩, ⟨"chart3", 0, "c3"⟩]⟩).1 =
      [NetCall.findSpace "space1", NetCall.getCharts 333,
       NetCall.deleteChart 333 102,
       NetCall.putChart 333 101 ⟨"chart1", 0, "c1a"⟩,
       NetCall.postChart 333 ⟨"chart3", 0, "c3"⟩]) := by
  have h := createOrUpdateSpace_diff_sets
    ⟨Except.ok ⟨333, "space1"⟩, ⟨999, "space1"⟩,
     [⟨"chart1", 101, "c1"⟩, ⟨"chart2", 102, "c2"⟩], fun _ => none⟩
    ⟨"space1", [⟨"chart1", 0, "c1a"⟩, ⟨"chart3", 0, "c3"⟩]⟩
    ⟨333, "space1"⟩ rfl (by decide) (by decide)
  rw [h.1]
  decide

/-- C2: a local definition with an empty chart name, or with duplicate
chart names, makes `createOrUpdateSpace` fail with the corresponding
configuration error and an empty trace of remote calls (no lookup, no space
creation, no chart operation). -/
theorem createOrUpdateSpace_validates_first (env : Env) (newSpace : SpaceDef) :
    ((∃ c ∈ newSpace.charts, c.name = "") →
      createOrUpdateSpace env newSpace =
        ([], Except.error (CoError.config
          ("empty chart name in space " ++ newSpace.name))))
    ∧ ((∀ c ∈ newSpace.charts, c.name ≠ "") →
        ¬ (newSpace.charts.map (fun c => c.name)).Nodup →
      createOrUpdateSpace env newSpace =
        ([], Except.error (CoError.config
          ("duplicate chart names in space " ++ newSpace.name)))) := by
  constructor
  · rintro ⟨c, hc, hname⟩
    unfold createOrUpdateSpace
    rw [validateNewChartNames_empty newSpace.name _
      ⟨c.name, List.mem_map.mpr ⟨c, hc, rfl⟩, hname⟩]
  · intro hne hdup
    unfold createOrUpdateSpace
    rw [validateNewChartNames_dup newSpace.name _
      (by intro n hn
          obtain ⟨c, hc, rfl⟩ := List.mem_map.mp hn
          exact hne c hc)
      hdup]

/-- C2 witness: the spec's two examples — a chart named `""`, and two
charts both named `"A"` — fail with the respective messages and an empty
call trace. -/
theorem createOrUpdateSpace_validates_first_witness :
    (createOrUpdateSpace
        ⟨Except.ok ⟨1, "S"⟩, ⟨2, "S"⟩, [], fun _ => none⟩
        ⟨"S", [⟨"", 0, ""⟩]⟩ =
      ([], Except.error (CoError.config "empty chart name in space S")))
    ∧ (createOrUpdateSpace
        ⟨Except.ok ⟨1, "S"⟩, ⟨2, "S"⟩, [], fun _ => none⟩
        ⟨"S", [⟨"A", 0, "a1"⟩, ⟨"A", 0, "a2"⟩]⟩ =
      ([], Except.error (CoError.config "duplicate chart names in space S"))) := by
  constructor
  · have h := (createOrUpdateSpace_validates_first
      ⟨Except.ok ⟨1, "S"⟩, ⟨2, "S"⟩, [], fun _ => none⟩
      ⟨"S", [⟨"", 0, ""⟩]⟩).1 (by decide)
    rw [h]
    decide
  · have h := (createOrUpdateSpace_validates_first
      ⟨Except.ok ⟨1, "S"⟩, ⟨2, "S"⟩, [], fun _ => none⟩
      ⟨"S", [⟨"A", 0, "a1"⟩, ⟨"A", 0, "a2"⟩]⟩).2 (by decide) (by decide)
    rw [h]
    decide

/-- C3: for a valid local definition against an existing remote space,
`createOrUpdateSpace` returns normally iff no chart operation failed, and
otherwise rejects with one aggregate error whose payload is exactly the
ordered list of tagged failure records `chartFailures` (one record per
failed operation; delete failures first, then update, then create, each
group in original iteration order). -/
theorem createOrUpdateSpace_aggregates_failures (env : Env) (newSpace : SpaceDef) (s : RSpace)
    (hfind : env.findResult = Except.ok s)
    (hne : ∀ c ∈ newSpace.charts, c.name ≠ "")
    (hnd : (newSpace.charts.map (fun c => c.name)).Nodup) :
    ((createOrUpdateSpace env newSpace).2 = Except.ok () ↔
      chartFailures env s.id env.remoteCharts newSpace.charts = [])
    ∧ (chartFailures env s.id env.remoteCharts newSpace.charts ≠ [] →
      (createOrUpdateSpace env newSpace).2 = Except.error (CoError.aggregate
        ("some chart operations failed in space " ++ newSpace.name)
        (chartFailures env s.id env.remoteCharts newSpace.charts))) := by
  have hv := validateNewChartNames_eq_none newSpace.name _
    (by intro n hn
        obtain ⟨c, hc, rfl⟩ := List.mem_map.mp hn
        exact hne c hc)
    hnd
  rw [createOrUpdateSpace_found env newSpace s hfind hv, runChartOps_spec]
  by_cases h : chartFailures env s.id env.remoteCharts newSpace.charts = []
  · simp [h]
  · simp [h]

/-- C3 witness: the spec's failing scenario — delete of chart2, update of
chart1 and create of chart3 all rejected with field errors — rejects with
one aggregate error listing exactly the three tagged records in
delete/update/create order; with all operations succeeding the call
returns normally. -/
theorem createOrUpdateSpace_aggregates_failures_witness :
    ((createOrUpdateSpace
        ⟨Except.ok ⟨333, "space1"⟩, ⟨999, "space1"⟩,
         [⟨"chart1", 101, "c1"⟩, ⟨"chart2", 102, "c2"⟩],
         fun call => match call with
           | NetCall.deleteChart _ _ => some ["bad delete params"]
           | NetCall.putChart _ _ _ => some ["bad put params"]
           | NetCall.postChart _ _ => some ["bad post params"]
           | _ => none⟩
        ⟨"space1", [⟨"chart1", 0, "c1a"⟩, ⟨"chart3", 0, "c3"⟩]⟩).2 =
      Except.error (CoError.aggregate "some chart operations failed in space space1"
        [⟨"chart2", "delete", ["bad delete params"]⟩,
         ⟨"chart1", "update", ["bad put params"]⟩,
         ⟨"chart3", "create", ["bad post params"]⟩]))
    ∧ ((createOrUpdateSpace
        ⟨Except.ok ⟨333, "space1"⟩, ⟨999, "space1"⟩,
         [⟨"chart1", 101, "c1"⟩, ⟨"chart2", 102, "c2"⟩], fun _ => none⟩
        ⟨"space1", [⟨"chart1", 0, "c1a"⟩, ⟨"chart3", 0, "c3"⟩]⟩).2 = Except.ok ()) := by
  constructor
  · have h := (createOrUpdateSpace_aggregates_failures
      ⟨Except.ok ⟨333, "space1"⟩, ⟨999, "space1"⟩,
       [⟨"chart1", 101, "c1"⟩, ⟨"chart2", 102, "c2"⟩],
       fun call => match call with
         | NetCall.deleteChart _ _ => some ["bad delete params"]
         | NetCall.putChart _ _ _ => some ["bad put params"]
         | NetCall.postChart _ _ => some ["bad post params"]
         | _ => none⟩
      ⟨"space1", [⟨"chart1", 0, "c1a"⟩, ⟨"chart3", 0, "c3"⟩]⟩
      ⟨333, "space1"⟩ rfl (by decide) (by decide)).2 (by decide)
    rw [h]
    decide
  · exact (createOrUpdateSpace_aggregates_failures
      ⟨Except.ok ⟨333, "space1"⟩, ⟨999, "space1"⟩,
       [⟨"chart1", 101, "c1"⟩, ⟨"chart2", 102, "c2"⟩], fun _ => none⟩
      ⟨"space1", [⟨"chart1", 0, "c1a"⟩, ⟨"chart3", 0, "c3"⟩]⟩
      ⟨333, "space1"⟩ rfl (by decide) (by decide)).1.mpr (by decide)

theorem isDeleteCall_del (i j : Nat) : isDeleteCall (NetCall.deleteChart i j) = true := rfl

theorem isDeleteCall_upd (i j : Nat) (c : Chart) : isDeleteCall (NetCall.putChart i j c) = false := rfl

theorem isDeleteCall_cre (i : Nat) (c : Chart) : isDeleteCall (NetCall.postChart i c) = false := rfl

theorem isUpdateCall_del (i j : Nat) : isUpdateCall (NetCall.deleteChart i j) = false := rfl

theorem isUpdateCall_upd (i j : Nat) (c : Chart) : isUpdateCall (NetCall.putChart i j c) = true := rfl

theorem isUpdateCall_cre (i : Nat) (c : Chart) : isUpdateCall (NetCall.postChart i c) = false := rfl

theorem isCreateCall_del (i j : Nat) : isCreateCall (NetCall.deleteChart i j) = false := rfl

theorem isCreateCall_upd (i j : Nat) (c : Chart) : isCreateCall (NetCall.putChart i j c) = false := rfl

theorem isCreateCall_cre (i : Nat) (c : Chart) : isCreateCall (NetCall.postChart i c) = true := rfl

/-- The chart operations in the trace of a `runChartOps` phase are grouped
as all deletes, then all updates, then all creates, provided the two
already-issued lookup-phase calls are not chart operations. -/
theorem runChartOps_grouped (env : Env) (newSpace : SpaceDef) (a b : NetCall)
    (spaceId : Nat) (existing : List Chart)
    (ha : isDeleteCall a = false ∧ isUpdateCall a = false ∧ isCreateCall a = false)
    (hb : isDeleteCall b = false ∧ isUpdateCall b = false ∧ isCreateCall b = false) :
    chartOpCalls (runChartOps env newSpace [a, b] spaceId existing).1 =
      ((runChartOps env newSpace [a, b] spaceId existing).1.filter isDeleteCall)
      ++ ((runChartOps env newSpace [a, b] spaceId existing).1.filter isUpdateCall)
      ++ ((runChartOps env newSpace [a, b] spaceId existing).1.filter isCreateCall) := by
  rw [runChartOps_spec]
  simp [chartOpCalls, List.filter_append, List.filter_map, Function.comp_def, List.filter_cons,
    ha.1, ha.2.1, ha.2.2, hb.1, hb.2.1, hb.2.2,
    isDeleteCall_del, isDeleteCall_upd, isDeleteCall_cre,
    isUpdateCall_del, isUpdateCall_upd, isUpdateCall_cre,
    isCreateCall_del, isCreateCall_upd, isCreateCall_cre]

/-- C6: in every `createOrUpdateSpace` call trace, the chart operations
are grouped in issuing order as all deletes, then all updates, then all
creates. -/
theorem createOrUpdateSpace_op_order (env : Env) (newSpace : SpaceDef) :
    chartOpCalls (createOrUpdateSpace env newSpace).1 =
      ((createOrUpdateSpace env newSpace).1.filter isDeleteCall)
      ++ ((createOrUpdateSpace env newSpace).1.filter isUpdateCall)
      ++ ((createOrUpdateSpace env newSpace).1.filter isCreateCall) := by
  unfold createOrUpdateSpace
  cases hval : validateNewChartNames newSpace.name (newSpace.charts.map (fun c => c.name)) with
  | some msg => simp [chartOpCalls]
  | none =>
    cases hopt : env.findResult.toOption with
    | none =>
      exact runChartOps_grouped env newSpace _ _ _ _ ⟨rfl, rfl, rfl⟩ ⟨rfl, rfl, rfl⟩
    | some s =>
      exact runChartOps_grouped env newSpace _ _ _ _ ⟨rfl, rfl, rfl⟩ ⟨rfl, rfl, rfl⟩

/-- C10: when the initial space lookup rejects — with any error, not just
NotFound — `createOrUpdateSpace` swallows the rejection and treats the
space as absent: it posts a new space, fetches no charts, issues no delete
or update, creates every local chart, and its outcome depends only on the
create operations (the lookup error is never propagated). -/
theorem createOrUpdateSpace_swallows_lookup_errors
    (env : Env) (newSpace : SpaceDef) (e : String)
    (hfind : env.findResult = Except.error e)
    (hne : ∀ c ∈ newSpace.charts, c.name ≠ "")
    (hnd : (newSpace.charts.map (fun c => c.name)).Nodup) :
    ((createOrUpdateSpace env newSpace).1 =
      [NetCall.findSpace newSpace.name, NetCall.postSpace newSpace.name]
      ++ newSpace.charts.map (fun c => NetCall.postChart env.postedSpace.id c))
    ∧ ((createOrUpdateSpace env newSpace).2 = Except.ok () ↔
        newSpace.charts.filterMap
          (fun c => (env.opResult (NetCall.postChart env.postedSpace.id c)).map
            (fun errs => FailRec.mk c.name "create" errs)) = []) := by
  have hv := validateNewChartNames_eq_none newSpace.name _
    (by intro n hn
        obtain ⟨c, hc, rfl⟩ := List.mem_map.mp hn
        exact hne c hc)
    hnd
  rw [createOrUpdateSpace_absent env newSpace e hfind hv, runChartOps_spec]
  have hdel : toDeleteSet [] newSpace.charts = [] := rfl
  have hupd : toUpdateSet [] newSpace.charts = [] := by
    unfold toUpdateSet
    simp
  have hcre : toCreateSet [] newSpace.charts = newSpace.charts := by
    unfold toCreateSet
    simp
  constructor
  · rw [hdel, hupd, hcre]
    simp
  · rw [chartFailures, hdel, hupd, hcre]
    simp only [List.filterMap_nil, List.nil_append]
    by_cases h : newSpace.charts.filterMap
        (fun c => (env.opResult (NetCall.postChart env.postedSpace.id c)).map
          (fun errs => FailRec.mk c.name "create" errs)) = []
    · simp [h]
    · simp [h]

/-- C10 witness: a transient lookup failure (`"ECONNRESET"`) against a
pre-existing space leads to an attempted duplicate space creation and
creates of all charts, with no propagated lookup error. -/
theorem createOrUpdateSpace_swallows_lookup_errors_witness :
    ((createOrUpdateSpace
        ⟨Except.error "ECONNRESET", ⟨7, "S"⟩, [⟨"c1", 11, "old"⟩], fun _ => none⟩
        ⟨"S", [⟨"c1", 0, "b"⟩]⟩).1 =
      [NetCall.findSpace "S", NetCall.postSpace "S",
       NetCall.postChart 7 ⟨"c1", 0, "b"⟩])
    ∧ ((createOrUpdateSpace
        ⟨Except.error "ECONNRESET", ⟨7, "S"⟩, [⟨"c1", 11, "old"⟩], fun _ => none⟩
        ⟨"S", [⟨"c1", 0, "b"⟩]⟩).2 = Except.ok ()) := by
  have h := createOrUpdateSpace_swallows_lookup_errors
    ⟨Except.error "ECONNRESET", ⟨7, "S"⟩, [⟨"c1", 11, "old"⟩], fun _ => none⟩
    ⟨"S", [⟨"c1", 0, "b"⟩]⟩ "ECONNRESET" rfl (by decide) (by decide)
  refine ⟨?_, h.2.mpr (by decide)⟩
  rw [h.1]
  decide

/-! ### JSON-like values and lodash `_.merge` (for `_processRawConfig`)

Config objects (metric definitions) are modelled as association lists of
string keys to values; values are strings, numbers or nested objects.
`_.merge(dst, src)` recursively merges plain objects, with `src` winning on
non-object conflicts; keys keep `dst` order, with `src`-only keys appended. -/

inductive JVal where
  | str : String → JVal
  | num : Int → JVal
  | obj : List (String × JVal) → JVal
  deriving Repr

/-- A JS plain object: an ordered association list of fields. -/
abbrev JObj := List (String × JVal)

/-- First-match field lookup (JS property access). -/
def jlookup : JObj → String → Option JVal
  | [], _ => none
  | (k, v) :: rest, key => if key = k then some v else jlookup rest key

mutual

/-- `_.merge` on two values: plain objects merge recursively, any other
source value overwrites the destination. -/
def mergeVal : JVal → JVal → JVal
  | JVal.obj d, JVal.obj s =>
    JVal.obj (mergeEntries d s ++ s.filter (fun kv => (jlookup d kv.1).isNone))
  | _, s => s

/-- The destination's fields in order, each deep-merged with the source's
value for the same key when present. -/
def mergeEntries : JObj → JObj → JObj
  | [], _ => []
  | (k, v) :: d, s =>
    (k, match jlookup s k with
        | some sv => mergeVal v sv
        | none => v) :: mergeEntries d s

end

/-- `_.merge(d, s)` on two plain objects. -/
def mergeObj (d s : JObj) : JObj :=
  mergeEntries d s ++ s.filter (fun kv => (jlookup d kv.1).isNone)

theorem mergeVal_obj (d s : JObj) : mergeVal (JVal.obj d) (JVal.obj s) = JVal.obj (mergeObj d s) :=
  rfl

theorem jlookup_append (a b : JObj) (k : String) :
    jlookup (a ++ b) k = ((jlookup a k).map some).getD (jlookup b k) := by
  induction a with
  | nil => simp [jlookup]
  | cons kv rest ih =>
    obtain ⟨k1, v1⟩ := kv
    by_cases h : k = k1
    · simp [jlookup, h]
    · simp [jlookup, h, ih]

theorem jlookup_mergeEntries (d s : JObj) (k : String) :
    jlookup (mergeEntries d s) k =
      (jlookup d k).map (fun v =>
        match jlookup s k with
        | some sv => mergeVal v sv
        | none => v) := by
  induction d with
  | nil => simp [mergeEntries, jlookup]
  | cons kv rest ih =>
    obtain ⟨k1, v1⟩ := kv
    by_cases h : k = k1
    · subst h
      simp [mergeEntries, jlookup]
    · simp [mergeEntries, jlookup, h, ih]

theorem jlookup_filter_of_absent (d s : JObj) (k : String) (h : jlookup d k = none) :
    jlookup (s.filter (fun kv => (jlookup d kv.1).isNone)) k = jlookup s k := by
  induction s with
  | nil => simp
  | cons kv rest ih =>
    obtain ⟨k1, v1⟩ := kv
    by_cases hk : k = k1
    · subst hk
      simp [List.filter_cons, h, jlookup]
    · cases hp : (jlookup d k1).isNone with
      | true => simp [List.filter_cons, hp, jlookup, hk, ih]
      | false => simp [List.filter_cons, hp, jlookup, hk, ih]

/-- Field-level behaviour of `_.merge(d, s)`: source-only fields come from
the source, destination-only fields survive, conflicting fields are merged
recursively (which, for non-object source values, means the source wins). -/
theorem jlookup_mergeObj (d s : JObj) (k : String) :
    jlookup (mergeObj d s) k =
      match jlookup d k, jlookup s k with
      | none, sv => sv
      | some dv, none => some dv
      | some dv, some sv => some (mergeVal dv sv) := by
  unfold mergeObj
  rw [jlookup_append, jlookup_mergeEntries]
  cases hd : jlookup d k with
  | none =>
    simp [jlookup_filter_of_absent d s k hd]
  | some dv =>
    cases hs : jlookup s k <;> simp

/-- `x.name === '__default__'`: true exactly when the metric's `name`
field is the string `__default__`. -/
def isDefaultMetric (m : JObj) : Bool :=
  match jlookup m "name" with
  | some (JVal.str s) => decide (s = "__default__")
  | _ => false

/-- `applyDefaultMetric` (index.js lines 972-980): partition the metric
list on the `__default__` name, assert at most one default entry, and merge
the default under every remaining metric; the assertion failure is modelled
as the error value. -/
def applyDefaultMetric (metrics : List JObj) : Except String (List JObj) :=
  let ps := metrics.partition isDefaultMetric
  if ps.1.length ≤ 1 then
    Except.ok (ps.2.map (fun m => mergeObj (ps.1.head?.getD []) m))
  else
    Except.error "more than 1 __default__ metric"

/-- C4: `applyDefaultMetric` partitions the metrics into at most one
`__default__` entry and the rest; with more than one default entry it fails
(the model is pure, so no network call can precede the failure); otherwise
it deep-merges the default under each remaining metric — default fields are
the base, the metric's own fields win on non-object conflicts — and the
`__default__` entry is removed from the output. -/
theorem applyDefaultMetric_spec (metrics : List JObj) :
    ((metrics.filter isDefaultMetric).length > 1 →
      applyDefaultMetric metrics = Except.error "more than 1 __default__ metric")
    ∧ ((metrics.filter isDefaultMetric).length ≤ 1 →
      applyDefaultMetric metrics = Except.ok
        ((metrics.filter (fun m => !isDefaultMetric m)).map
          (fun m => mergeObj (((metrics.filter isDefaultMetric).head?).getD []) m)))
    ∧ (∀ d m k dv, jlookup m k = none → jlookup d k = some dv →
        jlookup (mergeObj d m) k = some dv)
    ∧ (∀ d m k sv, jlookup m k = some sv → (∀ o, sv ≠ JVal.obj o) →
        jlookup (mergeObj d m) k = some sv) := by
  refine ⟨?_, ?_, ?_, ?_⟩
  · intro h
    unfold applyDefaultMetric
    simp only [List.partition_eq_filter_filter]
    rw [if_neg]
    exact Nat.not_le_of_lt h
  · intro h
    unfold applyDefaultMetric
    simp only [List.partition_eq_filter_filter]
    rw [if_pos h]
    simp [Function.comp_def]
  · intro d m k dv hm hd
    rw [jlookup_mergeObj, hm, hd]
  · intro d m k sv hm hobj
    rw [jlookup_mergeObj, hm]
    cases hd : jlookup d k with
    | none => rfl
    | some dv =>
      cases dv <;> cases sv <;> first
        | rfl
        | exact absurd rfl (hobj _)

/-- C4 witness: the spec's example
`[{name:"__default__", period:60}, {name:"x"}, {name:"y", period:10}]`
normalizes to `[{name:"x", period:60}, {name:"y", period:10}]`, and a
config with two `__default__` entries fails. -/
theorem applyDefaultMetric_spec_witness :
    (applyDefaultMetric
      [[("name", JVal.str "__default__"), ("period", JVal.num 60)],
       [("name", JVal.str "x")],
       [("name", JVal.str "y"), ("period", JVal.num 10)]] =
      Except.ok
        [[("name", JVal.str "x"), ("period", JVal.num 60)],
         [("name", JVal.str "y"), ("period", JVal.num 10)]])
    ∧ (applyDefaultMetric
        [[("name", JVal.str "__default__"), ("period", JVal.num 60)],
         [("name", JVal.str "__default__"), ("period", JVal.num 30)]] =
      Except.error "more than 1 __default__ metric") := by
  constructor
  · have h := (applyDefaultMetric_spec
      [[("name", JVal.str "__default__"), ("period", JVal.num 60)],
       [("name", JVal.str "x")],
       [("name", JVal.str "y"), ("period", JVal.num 10)]]).2.1
      (by decide)
    rw [h]
    rfl
  · have h := (applyDefaultMetric_spec
      [[("name", JVal.str "__default__"), ("period", JVal.num 60)],
       [("name", JVal.str "__default__"), ("period", JVal.num 30)]]).1
      (by norm_num [isDefaultMetric, jlookup])
    rw [h]

/-! ### Template engine (`_processRawConfig`, index.js lines 934-968)

The lodash template call (with the interpolate pattern of two opening
braces, a lazily-matched expression, and two closing braces) substitutes
each placeholder (lazily matched, so up to the first closing braces)
with the named binding from the data object; an unterminated opening stays
literal text.  Templates are parsed into literal/variable segments. -/

inductive Seg where
  | lit : String → Seg
  | var : String → Seg
  deriving DecidableEq, Repr

def lbrace : Char := Char.ofNat 123

def rbrace : Char := Char.ofNat 125

/-- Template segment parser; `inVar` is true inside an open placeholder,
`acc` holds the current segment's characters in reverse. -/
def parseTemplateAux (inVar : Bool) (acc : List Char) : List Char → List Seg
  | [] =>
    if inVar then [Seg.lit (String.mk (lbrace :: lbrace :: acc.reverse))]
    else [Seg.lit (String.mk acc.reverse)]
  | [c] =>
    if inVar then [Seg.lit (String.mk (lbrace :: lbrace :: (c :: acc).reverse))]
    else [Seg.lit (String.mk (c :: acc).reverse)]
  | c1 :: c2 :: rest =>
    if inVar then
      if c1 = rbrace ∧ c2 = rbrace then
        Seg.var (String.mk acc.reverse) :: parseTemplateAux false [] rest
      else
        parseTemplateAux true (c1 :: acc) (c2 :: rest)
    else
      if c1 = lbrace ∧ c2 = lbrace then
        Seg.lit (String.mk acc.reverse) :: parseTemplateAux true [] rest
      else
        parseTemplateAux false (c1 :: acc) (c2 :: rest)

def parseTemplate (s : String) : List Seg :=
  parseTemplateAux false [] s.toList

/-- JS string coercion of a substituted value. -/
def jvalToString : JVal → String
  | JVal.str s => s
  | JVal.num n => toString n
  | JVal.obj _ => "[object Object]"

def renderSeg (perm : JObj) : Seg → String
  | Seg.lit t => t
  | Seg.var v => jvalToString ((jlookup perm v).getD (JVal.str ""))

/-- `createTemplate(source)(data)`: render a template string against one
permutation's bindings. -/
def renderTemplate (tpl : String) (perm : JObj) : String :=
  String.join ((parseTemplate tpl).map (renderSeg perm))

/-- `js-combinatorics.cartesianProduct(...).toArray()`: the first list
varies fastest. -/
def cartesianProduct : List (List α) → List (List α)
  | [] => [[]]
  | xs :: rest => (cartesianProduct rest).flatMap (fun t => xs.map (fun x => x :: t))

/-- `createTemplateValuePermutations` (index.js lines 934-940): reverse the
keys and the value lists, take the cartesian product and zip each value
tuple back with the keys. -/
def createTemplateValuePermutations (tv : List (String × List JVal)) : List JObj :=
  (cartesianProduct ((tv.map Prod.snd).reverse)).map
    (fun tuple => ((tv.map Prod.fst).reverse).zip tuple)

/-- `templateValuePermutations` (index.js lines 941-942): a single empty
permutation when no template values are configured. -/
def templateValuePermutationsOf (tv : List (String × List JVal)) : List JObj :=
  if tv.isEmpty then [[]] else createTemplateValuePermutations tv

/-- `templatePermutations` (index.js lines 964-965): all renderings of one
template over the permutations, deduplicated keeping first occurrences. -/
def templatePermutationsOf (tv : List (String × List JVal)) (template : String) : List String :=
  lodashUniq ((templateValuePermutationsOf tv).map (renderTemplate template))


/-- C5: for `template_values = \u007ba: [1,2], b: [3,4]\u007d` the permutation
expansion yields exactly 4 permutations, one per (a, b) pair with no
duplicate assignments (in the implementation's order: reversed keys,
cartesian product with the first list varying fastest), and rendering the
template `"..."` with placeholders `a` and `b` joined by a dot over those
permutations, with deduplication of identical renderings, yields exactly
`["1.3", "1.4", "2.3", "2.4"]` in that order. -/
theorem templateExpansion_example :
    createTemplateValuePermutations
        [("a", [JVal.num 1, JVal.num 2]), ("b", [JVal.num 3, JVal.num 4])] =
      [[("b", JVal.num 3), ("a", JVal.num 1)],
       [("b", JVal.num 4), ("a", JVal.num 1)],
       [("b", JVal.num 3), ("a", JVal.num 2)],
       [("b", JVal.num 4), ("a", JVal.num 2)]]
    ∧ (createTemplateValuePermutations
        [("a", [JVal.num 1, JVal.num 2]), ("b", [JVal.num 3, JVal.num 4])]).length = 4
    ∧ (createTemplateValuePermutations
        [("a", [JVal.num 1, JVal.num 2]), ("b", [JVal.num 3, JVal.num 4])]).Nodup
    ∧ templatePermutationsOf
        [("a", [JVal.num 1, JVal.num 2]), ("b", [JVal.num 3, JVal.num 4])]
        "\x7b\x7ba\x7d\x7d.\x7b\x7bb\x7d\x7d" =
      ["1.3", "1.4", "2.3", "2.4"] := by
  refine ⟨rfl, rfl, ?_, by decide⟩
  have he : createTemplateValuePermutations
      [("a", [JVal.num 1, JVal.num 2]), ("b", [JVal.num 3, JVal.num 4])] =
    [[("b", JVal.num 3), ("a", JVal.num 1)],
     [("b", JVal.num 4), ("a", JVal.num 1)],
     [("b", JVal.num 3), ("a", JVal.num 2)],
     [("b", JVal.num 4), ("a", JVal.num 2)]] := rfl
  rw [he]
  simp

/-! ### Outdated-metric name expansion (`_processRawConfig`, index.js
lines 928-931 and 992-995)

The raw `outdated.metrics` value is merged over the empty default (so a
missing value is empty) and then passed to
`templatesPermutations = _.flatMap(templatePermutations)` WITHOUT the
`allFlat` flattening applied to the five top-level kinds.  A non-string
entry reaches `_.template`, which coerces its source argument with lodash
`toString`; for an array that join-concatenates the elements with commas. -/

/-- A raw entry under `outdated.metrics`: a metric-name string, or (from a
config file holding an array in a nested directory) a nested sequence of
strings. -/
inductive RawEntry where
  | str : String → RawEntry
  | arr : List String → RawEntry
  deriving DecidableEq, Repr

/-- lodash `toString` as applied by `_.template` to the entry: strings are
unchanged, arrays are comma-joined. -/
def lodashToString : RawEntry → String
  | RawEntry.str s => s
  | RawEntry.arr xs => String.intercalate "," xs

/-- `templatesPermutations(outdated.metrics)`: each entry is
string-coerced, rendered over all template permutations and deduplicated
per entry, and the per-entry results are concatenated. -/
def templatesPermutationsOf (tv : List (String × List JVal)) (entries : List RawEntry) :
    List String :=
  entries.flatMap (fun e => templatePermutationsOf tv (lodashToString e))

/-- The outdated-metrics component of `_processRawConfig`'s result:
`none` models a raw config whose `outdated` sub-tree carries no `metrics`
key (the `_.merge` base supplies `[]`). -/
def processOutdatedMetrics (tv : List (String × List JVal))
    (outdatedMetrics : Option (List RawEntry)) : List String :=
  templatesPermutationsOf tv (outdatedMetrics.getD [])

/-- The outdated-metrics normalization as claim C9 words it: flatten the
value one level (missing value empty, strings kept, nested sequences
spliced), render each string over all permutations, and deduplicate the
flattened rendered names by string value, keeping first occurrences. -/
def claimedOutdatedMetrics (tv : List (String × List JVal))
    (outdatedMetrics : Option (List RawEntry)) : List String :=
  lodashUniq (((outdatedMetrics.getD []).flatMap (fun e =>
      match e with
      | RawEntry.str s => [s]
      | RawEntry.arr xs => xs)).flatMap
    (fun s => (templateValuePermutationsOf tv).map (renderTemplate s)))

/-- C9 counterexample: the code does not flatten the outdated-metrics
value — a nested sequence `[["a", "b"]]` is string-coerced to the single
name `"a,b"` instead of the two names `"a"` and `"b"` the claim predicts. -/
theorem processOutdatedMetrics_counterexample :
    processOutdatedMetrics [] (some [RawEntry.arr ["a", "b"]]) = ["a,b"]
    ∧ claimedOutdatedMetrics [] (some [RawEntry.arr ["a", "b"]]) = ["a", "b"]
    ∧ processOutdatedMetrics [] (some [RawEntry.arr ["a", "b"]]) ≠
        claimedOutdatedMetrics [] (some [RawEntry.arr ["a", "b"]]) := by
  refine ⟨rfl, rfl, ?_⟩
  decide

/-- C9 amended: a missing outdated-metrics value is treated as empty, but
the entries are not flattened: each entry is coerced to a string (a nested
sequence becomes its comma-joined string) and rendered over all template
permutations; each entry's rendered names are deduplicated by string value
preserving first-occurrence order, and the per-entry result lists are
concatenated without cross-entry deduplication. -/
theorem processOutdatedMetrics_spec (tv : List (String × List JVal))
    (entries : List RawEntry) :
    processOutdatedMetrics tv none = []
    ∧ processOutdatedMetrics tv (some entries) =
        entries.flatMap (fun e =>
          lodashUniq ((templateValuePermutationsOf tv).map
            (renderTemplate (lodashToString e))))
    ∧ (∀ e : RawEntry, (templatePermutationsOf tv (lodashToString e)).Nodup)
    ∧ (∀ (e : RawEntry) (rest : List RawEntry),
        processOutdatedMetrics tv (some (e :: rest)) =
          processOutdatedMetrics tv (some [e]) ++ processOutdatedMetrics tv (some rest)) := by
  refine ⟨rfl, rfl, ?_, ?_⟩
  · intro e
    exact nodup_lodashUniq _
  · intro e rest
    simp [processOutdatedMetrics, templatesPermutationsOf]

/-! ### `dumpSpace` (index.js lines 778-793)

Streams and charts are modelled with their server-relevant fields as
options (`none` = the field is absent on the wire object) plus an opaque
`rest` standing for any remaining fields, which `dumpSpace` passes through
untouched.  `_.omit` of a field sets it to `none`. -/

structure DStream where
  id : Option Nat
  type : Option String
  name : Option String
  source : Option String
  metric : Option String
  composite : Option String
  rest : String
  deriving DecidableEq, Repr

structure DChart where
  id : Option Nat
  type : Option String
  name : String
  streams : List DStream
  rest : String
  deriving DecidableEq, Repr

/-- The cleaned space definition returned by `dumpSpace`
(`_.omit('id')` on the space, charts updated). -/
structure SpaceDump where
  name : String
  charts : List DChart
  deriving DecidableEq, Repr

/-- Remote state visible to `dumpSpace`: the full spaces listing and each
space's charts. -/
structure DumpEnv where
  spaces : List RSpace
  chartsOf : Nat → List DChart

/-- `cleanStream = _.flow(_.omit(['id', 'type']), omitRedundantComposite)`:
drop the stream's `id` and `type`, then drop `composite` exactly when the
stream carries a `metric` reference. -/
def cleanStream (s : DStream) : DStream :=
  let s1 := { s with id := none, type := none }
  if s1.metric.isSome then { s1 with composite := none } else s1

/-- `cleanChart = _.flow(_.omit('id'), _.update('streams', cleanStreams))`:
drop the chart's `id` (only) and clean every stream. -/
def cleanChart (c : DChart) : DChart :=
  { c with id := none, streams := c.streams.map cleanStream }

/-- `findSpaceByName` (index.js lines 734-749): first space whose name
matches exactly, a 404 `StatusCodeError` when none does. -/
def findSpaceByNameM (spaces : List RSpace) (name : String) : Except String RSpace :=
  match (spaces.filter (fun s => decide (s.name = name))).head? with
  | some s => Except.ok s
  | none => Except.error ("no space named " ++ name)

/-- `dumpSpace` (index.js lines 778-793): look up the space by name, load
its charts, merge them in and clean the result (`cleanSpace` drops the
space's `id` and cleans every chart). -/
def dumpSpaceM (env : DumpEnv) (name : String) : Except String SpaceDump :=
  match findSpaceByNameM env.spaces name with
  | Except.error e => Except.error e
  | Except.ok space =>
    Except.ok { name := space.name, charts := (env.chartsOf space.id).map cleanChart }

/-- C7 counterexample: a remote chart carrying a `type` field keeps it in
the dump output — `cleanChart` omits only the chart's `id`, so the claim
that each chart's `id` and `type` are stripped fails at chart level. -/
theorem dumpSpace_counterexample :
    dumpSpaceM
        ⟨[⟨1, "S"⟩],
         fun _ => [⟨some 101, some "line", "c", [], "r"⟩]⟩ "S" =
      Except.ok ⟨"S", [⟨none, some "line", "c", [], "r"⟩]⟩
    ∧ (some "line" : Option String) ≠ none := by
  exact ⟨rfl, by decide⟩

/-- C7 amended: for every name with at least one exact-name remote space,
`dumpSpace` returns the first matching space's definition with its charts
loaded and cleaned — each chart's server-only `id` stripped (its `type`
retained), each stream's server-only `id` and `type` stripped, and each
stream's `composite` stripped exactly when the stream carries a `metric`
reference, all other fields untouched; it fails with NotFound when no
space of that exact name exists. -/
theorem dumpSpace_spec (env : DumpEnv) (name : String) :
    (∀ s rest, env.spaces.filter (fun s => decide (s.name = name)) = s :: rest →
      dumpSpaceM env name =
        Except.ok ⟨s.name, (env.chartsOf s.id).map cleanChart⟩)
    ∧ (env.spaces.filter (fun s => decide (s.name = name)) = [] →
      dumpSpaceM env name = Except.error ("no space named " ++ name))
    ∧ (∀ c : DChart, (cleanChart c).id = none ∧ (cleanChart c).type = c.type
        ∧ (cleanChart c).name = c.name ∧ (cleanChart c).rest = c.rest
        ∧ (cleanChart c).streams = c.streams.map cleanStream)
    ∧ (∀ st : DStream, (cleanStream st).id = none ∧ (cleanStream st).type = none
        ∧ (cleanStream st).name = st.name ∧ (cleanStream st).source = st.source
        ∧ (cleanStream st).metric = st.metric ∧ (cleanStream st).rest = st.rest
        ∧ (cleanStream st).composite = (if st.metric.isSome then none else st.composite)) := by
  refine ⟨?_, ?_, ?_, ?_⟩
  · intro s rest h
    unfold dumpSpaceM findSpaceByNameM
    rw [h]
    rfl
  · intro h
    unfold dumpSpaceM findSpaceByNameM
    rw [h]
    rfl
  · intro c
    exact ⟨rfl, rfl, rfl, rfl, rfl⟩
  · intro st
    unfold cleanStream
    by_cases h : st.metric.isSome
    · simp [h]
    · simp [h]

/-- C7 witness: two remote spaces named `S` — the dump uses the first
match (id 1, not id 2) with its charts cleaned; a stream with a `metric`
reference loses its `composite`, and the lookup of a missing name fails
with the 404 message. -/
theorem dumpSpace_spec_witness :
    dumpSpaceM
        ⟨[⟨1, "S"⟩, ⟨2, "S"⟩],
         fun i => if i = 1 then
            [⟨some 7, some "line", "c",
              [⟨some 9, some "composite", some "s1", some "%", some "m", some "sum(x)", "r"⟩],
              "cr"⟩]
          else []⟩ "S" =
      Except.ok ⟨"S",
        [⟨none, some "line", "c",
          [⟨none, none, some "s1", some "%", some "m", none, "r"⟩],
          "cr"⟩]⟩
    ∧ dumpSpaceM (⟨[⟨1, "S"⟩], fun _ => []⟩ : DumpEnv) "T" =
        Except.error "no space named T" := by
  constructor
  · have h := (dumpSpace_spec
      ⟨[⟨1, "S"⟩, ⟨2, "S"⟩],
       fun i => if i = 1 then
          [⟨some 7, some "line", "c",
            [⟨some 9, some "composite", some "s1", some "%", some "m", some "sum(x)", "r"⟩],
            "cr"⟩]
        else []⟩ "S").1 ⟨1, "S"⟩ [⟨2, "S"⟩] (by decide)
    rw [h]
    rfl
  · have h := (dumpSpace_spec (⟨[⟨1, "S"⟩], fun _ => []⟩ : DumpEnv) "T").2.1 (by decide)
    rw [h]
    decide

/-! ### `updateFromDir` failure counting (librato.js lines 192-273)

Each remote action in the bulk apply settles independently; an outcome is
fulfillment or rejection with an optional HTTP status code (`none` models a
rejection without `statusCode`).  For an outdated-resource deletion the
whole chain (name lookup, when present, then the delete call) is the
action handed to `withLoggingIgnore404`. -/

inductive CallOutcome where
  | ok
  | err (statusCode : Option Nat)
  deriving DecidableEq, Repr

/-- `withLoggingIgnore404` (librato.js lines 209-219): fulfillment and a
404 rejection add nothing to the error counter (`logOK` / the `ignore404`
verbose log); any other rejection is rethrown into `logAndCountError`,
which increments the counter once. -/
def ignore404Count : CallOutcome → Nat
  | CallOutcome.ok => 0
  | CallOutcome.err c => if c = some 404 then 0 else 1

/-- `withLogging` (librato.js lines 216-217): any rejection increments the
counter once. -/
def withLoggingCount : CallOutcome → Nat
  | CallOutcome.ok => 0
  | CallOutcome.err _ => 1

/-- `updateFromDir`'s shared error counter and final outcome: the outdated
deletions are counted through `ignore404Count`, the stage-2/3 upserts
through `withLoggingCount`, and the call throws at the end iff the counter
is nonzero (librato.js line 272). -/
def updateFromDirResult (outdatedOutcomes updateOutcomes : List CallOutcome) :
    Nat × Except String Unit :=
  let errorCount :=
    (outdatedOutcomes.map ignore404Count).sum + (updateOutcomes.map withLoggingCount).sum
  (errorCount,
    if errorCount > 0 then Except.error (toString errorCount ++ " errors occured")
    else Except.ok ())

/-- C8: in the outdated stage, a deletion (or its preceding name lookup)
settling with 404 NotFound is treated as success and adds nothing to the
shared failure counter; a deletion failing for any other reason adds
exactly one; the counter sums every sibling's contribution independently
(no failure stops the others), and the whole apply fails at the end iff
the counter is nonzero. -/
theorem updateFromDir_error_counting (outdated updates : List CallOutcome) :
    (ignore404Count (CallOutcome.err (some 404)) = 0)
    ∧ (ignore404Count CallOutcome.ok = 0)
    ∧ (∀ c : Option Nat, c ≠ some 404 → ignore404Count (CallOutcome.err c) = 1)
    ∧ ((updateFromDirResult outdated updates).1 =
        (outdated.map ignore404Count).sum + (updates.map withLoggingCount).sum)
    ∧ ((updateFromDirResult outdated updates).2 = Except.ok () ↔
        (updateFromDirResult outdated updates).1 = 0) := by
  refine ⟨rfl, rfl, ?_, rfl, ?_⟩
  · intro c hc
    simp only [ignore404Count]
    rw [if_neg hc]
  · unfold updateFromDirResult
    by_cases h : (outdated.map ignore404Count).sum + (updates.map withLoggingCount).sum > 0
    · simp only [h, if_pos]
      constructor
      · intro habs
        exact absurd habs (by simp)
      · intro hz
        omega
    · simp only [h, if_neg]
      have hz : (outdated.map ignore404Count).sum + (updates.map withLoggingCount).sum = 0 := by
        omega
      simp [hz]

/-- C8 witness: a 404 deletion contributes nothing, a 500 deletion and a
no-status rejection contribute one each, and an apply whose only outdated
deletion hit 404 succeeds while one with a 500 fails. -/
theorem updateFromDir_error_counting_witness :
    (ignore404Count (CallOutcome.err (some 500)) = 1)
    ∧ (ignore404Count (CallOutcome.err none) = 1)
    ∧ ((updateFromDirResult [CallOutcome.err (some 404)] []).2 = Except.ok ())
    ∧ ((updateFromDirResult
          [CallOutcome.err (some 404), CallOutcome.err (some 500), CallOutcome.ok]
          [CallOutcome.ok]).1 = 1) := by
  have h1 := (updateFromDir_error_counting [] []).2.2.1 (some 500) (by decide)
  have h2 := (updateFromDir_error_counting [] []).2.2.1 none (by decide)
  have h3 := (updateFromDir_error_counting [CallOutcome.err (some 404)] []).2.2.2.2.mpr
    (by decide)
  exact ⟨h1, h2, h3, by decide⟩

end LibratoApi
